import Mathlib

/-!
# Verification of the URL-shortener core (`app/services/url_service.py`)

This file gives a shallow embedding of the URL Registry of the
location-ai-platform repository and proves the specification claims about it.

Conventions of the embedding:
* Timestamps are integers (seconds); `datetime.utcnow()` becomes an explicit
  `now : Int` parameter.  The two `utcnow()` calls inside one service method are
  modelled as a single instant.
* The Redis store is an association list from key strings to values; a key that
  the store has evicted (TTL expiry) is simply absent, matching the spec's
  "absence from the store IS deletion".  Every store primitive fails exactly
  when the store is unavailable (`avail = false`), which models
  connection failure uniformly; `setex` records its TTL argument in the entry.
* `random.choices(string.ascii_letters + string.digits, k=2)` is modelled by two
  externally supplied entropy values `r1 r2 : Nat`, reduced mod 62.
* `hashlib.md5` is implemented faithfully (RFC 1321) over the UTF-8 bytes of
  the input, with 32-bit words as `Nat` reduced mod `2^32`.
-/

/-! ## MD5 (`hashlib.md5(url.encode()).hexdigest()`) -/

/-- `2^32`, the word modulus of MD5. -/
def M32 : Nat := 4294967296

/-- The 64 round constants of MD5 (RFC 1321, `T[i] = floor(2^32 * abs(sin(i+1)))`). -/
def md5K : List Nat := [
  0xd76aa478, 0xe8c7b756, 0x242070db, 0xc1bdceee,
  0xf57c0faf, 0x4787c62a, 0xa8304613, 0xfd469501,
  0x698098d8, 0x8b44f7af, 0xffff5bb1, 0x895cd7be,
  0x6b901122, 0xfd987193, 0xa679438e, 0x49b40821,
  0xf61e2562, 0xc040b340, 0x265e5a51, 0xe9b6c7aa,
  0xd62f105d, 0x02441453, 0xd8a1e681, 0xe7d3fbc8,
  0x21e1cde6, 0xc33707d6, 0xf4d50d87, 0x455a14ed,
  0xa9e3e905, 0xfcefa3f8, 0x676f02d9, 0x8d2a4c8a,
  0xfffa3942, 0x8771f681, 0x6d9d6122, 0xfde5380c,
  0xa4beea44, 0x4bdecfa9, 0xf6bb4b60, 0xbebfbc70,
  0x289b7ec6, 0xeaa127fa, 0xd4ef3085, 0x04881d05,
  0xd9d4d039, 0xe6db99e5, 0x1fa27cf8, 0xc4ac5665,
  0xf4292244, 0x432aff97, 0xab9423a7, 0xfc93a039,
  0x655b59c3, 0x8f0ccc92, 0xffeff47d, 0x85845dd1,
  0x6fa87e4f, 0xfe2ce6e0, 0xa3014314, 0x4e0811a1,
  0xf7537e82, 0xbd3af235, 0x2ad7d2bb, 0xeb86d391]

/-- The per-round left-rotation amounts of MD5. -/
def md5S : List Nat := [
  7, 12, 17, 22, 7, 12, 17, 22, 7, 12, 17, 22, 7, 12, 17, 22,
  5, 9, 14, 20, 5, 9, 14, 20, 5, 9, 14, 20, 5, 9, 14, 20,
  4, 11, 16, 23, 4, 11, 16, 23, 4, 11, 16, 23, 4, 11, 16, 23,
  6, 10, 15, 21, 6, 10, 15, 21, 6, 10, 15, 21, 6, 10, 15, 21]

/-- 32-bit left rotation. -/
def rotl32 (x n : Nat) : Nat := ((x <<< n) % M32) ||| (x >>> (32 - n))

/-- The MD5 round mixing function (F, G, H, I by round quarter). -/
def md5F (i b c d : Nat) : Nat :=
  if i < 16 then (b &&& c) ||| ((b ^^^ 0xffffffff) &&& d)
  else if i < 32 then (d &&& b) ||| ((d ^^^ 0xffffffff) &&& c)
  else if i < 48 then b ^^^ c ^^^ d
  else c ^^^ (b ||| (d ^^^ 0xffffffff))

/-- The MD5 message-word index for round `i`. -/
def md5G (i : Nat) : Nat :=
  if i < 16 then i
  else if i < 32 then (5 * i + 1) % 16
  else if i < 48 then (3 * i + 5) % 16
  else (7 * i) % 16

/-- One MD5 round on the state `(a, b, c, d)` with message words `M`. -/
def md5Step (M : List Nat) (st : Nat × Nat × Nat × Nat) (i : Nat) :
    Nat × Nat × Nat × Nat :=
  let a := st.1
  let b := st.2.1
  let c := st.2.2.1
  let d := st.2.2.2
  let f := (md5F i b c d + a + md5K.getD i 0 + M.getD (md5G i) 0) % M32
  (d, (b + rotl32 f (md5S.getD i 0)) % M32, b, c)

/-- The 16 little-endian 32-bit message words of a 64-byte chunk. -/
def md5Words (chunk : List Nat) : List Nat :=
  (List.range 16).map (fun j =>
    chunk.getD (4 * j) 0 + 256 * chunk.getD (4 * j + 1) 0 +
      65536 * chunk.getD (4 * j + 2) 0 + 16777216 * chunk.getD (4 * j + 3) 0)

/-- Process one 64-byte chunk: 64 rounds, then add into the running state. -/
def md5Chunk (st : Nat × Nat × Nat × Nat) (chunk : List Nat) :
    Nat × Nat × Nat × Nat :=
  let r := (List.range 64).foldl (md5Step (md5Words chunk)) st
  ((st.1 + r.1) % M32, (st.2.1 + r.2.1) % M32,
   (st.2.2.1 + r.2.2.1) % M32, (st.2.2.2 + r.2.2.2) % M32)

/-- MD5 padding: append `0x80`, zero bytes to 56 mod 64, then the original
bit length as a 64-bit little-endian quantity. -/
def md5Pad (msg : List Nat) : List Nat :=
  let len := msg.length
  let zeros := (119 - len % 64) % 64
  let bitLen := (len * 8) % (2 ^ 64)
  msg ++ [0x80] ++ List.replicate zeros 0 ++
    (List.range 8).map (fun j => bitLen / 256 ^ j % 256)

/-- Split a byte list into 64-byte chunks. -/
def toChunks (l : List Nat) : List (List Nat) :=
  if hl : l = [] then []
  else (l.take 64) :: toChunks (l.drop 64)
termination_by l.length
decreasing_by
  simp only [List.length_drop]
  exact Nat.sub_lt (List.length_pos.mpr hl) (by omega)

/-- The final MD5 state over a padded message. -/
def md5Final (msg : List Nat) : Nat × Nat × Nat × Nat :=
  (toChunks (md5Pad msg)).foldl md5Chunk
    (0x67452301, 0xefcdab89, 0x98badcfe, 0x10325476)

/-- A 32-bit word as four little-endian bytes. -/
def wordLE (w : Nat) : List Nat :=
  [w % 256, w / 256 % 256, w / 65536 % 256, w / 16777216 % 256]

/-- The 16-byte MD5 digest of a byte string. -/
def md5Bytes (msg : List Nat) : List Nat :=
  wordLE (md5Final msg).1 ++ wordLE (md5Final msg).2.1 ++
    wordLE (md5Final msg).2.2.1 ++ wordLE (md5Final msg).2.2.2

/-- The lowercase hexadecimal digit for `n < 16` (as `hexdigest` prints). -/
def hexChar (n : Nat) : Char :=
  if n < 10 then Char.ofNat (48 + n) else Char.ofNat (87 + n)

/-- Bytes rendered as lowercase hexadecimal characters, two per byte. -/
def bytesToHex (bs : List Nat) : List Char :=
  bs.foldr (fun b acc => hexChar (b / 16) :: hexChar (b % 16) :: acc) []

/-- UTF-8 encoding of a single code point (Python `str.encode()`). -/
def utf8Bytes (n : Nat) : List Nat :=
  if n < 128 then [n]
  else if n < 2048 then [192 + n / 64, 128 + n % 64]
  else if n < 65536 then [224 + n / 4096, 128 + n / 64 % 64, 128 + n % 64]
  else [240 + n / 262144, 128 + n / 4096 % 64, 128 + n / 64 % 64, 128 + n % 64]

/-- The UTF-8 bytes of a string (`url.encode()`). -/
def strBytes (s : String) : List Nat :=
  (s.data.map (fun c => utf8Bytes c.toNat)).flatten

/-- `hashlib.md5(...).hexdigest()`: 32 lowercase hex characters. -/
def md5HexChars (msg : List Nat) : List Char := bytesToHex (md5Bytes msg)

/-! ## Short-code generation (`URLService.generate_short_code`) -/

/-- Python `string.ascii_letters + string.digits`: the 62-character alphabet
`random.choices` draws the two disambiguating characters from. -/
def asciiLettersDigits : List Char :=
  "abcdefghijklmnopqrstuvwxyzABCDEFGHIJKLMNOPQRSTUVWXYZ0123456789".data

namespace URLService

/-- `generate_short_code(url)`: the first 6 characters of
`hashlib.md5(url.encode()).hexdigest()` followed by 2 characters chosen from
`string.ascii_letters + string.digits`.  The two random draws are modelled by
externally supplied entropy `r1 r2 : Nat`, reduced mod 62. -/
def generate_short_code (url : String) (r1 r2 : Nat) : String :=
  let hash_hex : List Char := (md5HexChars (strBytes url)).take 6
  let random_chars : List Char :=
    [asciiLettersDigits.getD (r1 % 62) 'a', asciiLettersDigits.getD (r2 % 62) 'a']
  ⟨hash_hex ++ random_chars⟩

end URLService

/-! ## The key/value store (the Redis instance behind `URLService`)

Keys are plain strings, exactly as the Python code builds them
(`"url:" + code`, `"meta:" + code`, `"clicks:" + code`, `"clicks_log:" + code`).
A value is either a string written by `SETEX` (its TTL argument is recorded in
the entry), an integer counter maintained by `INCR`, or a list of timestamps
maintained by `LPUSH`/`LTRIM`.  A key the store has expired is absent.
`avail = false` models an unavailable store: every command raises. -/

inductive RVal where
  | vstr (s : String) (ttl : Int)
  | vint (n : Int)
  | vlist (l : List Int)
deriving DecidableEq, Repr

structure Store where
  avail : Bool
  entries : List (String × RVal)
deriving DecidableEq, Repr

/-- Lookup of a key in the store's association list. -/
def alookup (k : String) : List (String × RVal) → Option RVal
  | [] => none
  | (k', v) :: rest => if k' = k then some v else alookup k rest

/-- Write a key, replacing any existing binding. -/
def aset (k : String) (v : RVal) : List (String × RVal) → List (String × RVal)
  | [] => [(k, v)]
  | (k', v') :: rest =>
    if k' = k then (k, v) :: rest else (k', v') :: aset k v rest

/-- Remove a key (Redis `DEL`: no error if absent). -/
def adel (k : String) : List (String × RVal) → List (String × RVal)
  | [] => []
  | (k', v') :: rest => if k' = k then adel k rest else (k', v') :: adel k rest

/-- `GET key`: fails when the store is unavailable. -/
def Store.getV (s : Store) (k : String) : Except Unit (Option RVal) :=
  if s.avail then .ok (alookup k s.entries) else .error ()

/-- `SETEX key seconds value`: write with the given TTL recorded. -/
def Store.setex (s : Store) (k : String) (ttl : Int) (v : String) :
    Except Unit Store :=
  if s.avail then .ok { s with entries := aset k (.vstr v ttl) s.entries }
  else .error ()

/-- `INCR key`: a missing key counts as 0.  The program only applies `INCR` to
keys it created with `INCR`, so non-integer current values do not arise (Redis
itself would reject them); the model counts them as 0. -/
def Store.incr (s : Store) (k : String) : Except Unit Store :=
  if s.avail then
    let curr : Int :=
      match alookup k s.entries with
      | some (.vint n) => n
      | _ => 0
    .ok { s with entries := aset k (.vint (curr + 1)) s.entries }
  else .error ()

/-- `LPUSH key value` of a single timestamp: a missing key is an empty list. -/
def Store.lpush (s : Store) (k : String) (t : Int) : Except Unit Store :=
  if s.avail then
    let curr : List Int :=
      match alookup k s.entries with
      | some (.vlist l) => l
      | _ => []
    .ok { s with entries := aset k (.vlist (t :: curr)) s.entries }
  else .error ()

/-- `LTRIM key start stop` for the non-negative index range the program uses
(`LTRIM key 0 99`); on a missing key Redis replies OK and changes nothing. -/
def Store.ltrim (s : Store) (k : String) (start stop : Nat) :
    Except Unit Store :=
  if s.avail then
    .ok (match alookup k s.entries with
      | some (.vlist l) =>
        let trimmed := (l.drop start).take (stop + 1 - start)
        { s with entries := aset k (.vlist trimmed) s.entries }
      | _ => s)
  else .error ()

/-- `LRANGE key 0 -1` (the only form the program uses): the whole list, a
missing key yielding the empty list. -/
def Store.lrangeAll (s : Store) (k : String) : Except Unit (List Int) :=
  if s.avail then
    .ok (match alookup k s.entries with
      | some (.vlist l) => l
      | _ => [])
  else .error ()

/-- `DEL key`: remove the key, no error if absent. -/
def Store.del (s : Store) (k : String) : Except Unit Store :=
  if s.avail then .ok { s with entries := adel k s.entries } else .error ()

/-- `KEYS "url:*"`: every key of the store matching the glob, i.e. starting
with `"url:"`.  Redis returns keys in unspecified order; the model returns
store order. -/
def Store.urlKeys (s : Store) : Except Unit (List String) :=
  if s.avail then
    .ok ((s.entries.map Prod.fst).filter (fun k => "url:".data.isPrefixOf k.data))
  else .error ()

/-! ## The URL Registry (`URLService` methods) -/

/-- `settings.base_url` (default from `app/config.py`). -/
def base_url : String := "http://localhost:8000"

/-- Models the Python `str(metadata)` serialization of the metadata dict
written by `create_short_url`
(`{'original_url': ..., 'created_at': ..., 'expires_at': ...}`).
Timestamps are integers in this model, so `datetime.isoformat()` is rendered
as the integer's decimal string; a missing `expires_at` prints as `None`. -/
def metaStr (original_url : String) (created_at : Int)
    (expires_at : Option Int) : String :=
  "\x7b\x27original_url\x27: \x27" ++ original_url ++
    "\x27, \x27created_at\x27: \x27" ++ toString created_at ++
    "\x27, \x27expires_at\x27: " ++
    (match expires_at with
      | some e => "\x27" ++ toString e ++ "\x27"
      | none => "None") ++ "\x7d"

/-- Record returned by `get_url_stats` (the stats dict). -/
structure UrlStats where
  short_code : String
  click_count : Int
  click_logs : List Int
  metadata : Option String
deriving DecidableEq, Repr

/-- Record returned by `get_all_urls` for each enumerated key. -/
structure UrlEntry where
  short_code : String
  original_url : Option String
  metadata : Option String
  click_count : Int
deriving DecidableEq, Repr

namespace URLService

/-- The code `create_short_url` stores under: Python `if not short_code:`
treats both `None` and the empty string as missing and generates a code. -/
def chosenCode (original_url : String) (short_code : Option String)
    (r1 r2 : Nat) : String :=
  match short_code with
  | some c => if c = "" then generate_short_code original_url r1 r2 else c
  | none => generate_short_code original_url r1 r2

/-- The TTL computed by `create_short_url`:
`int((expires_at - datetime.utcnow()).total_seconds())` when `expires_at` is
given, else `3600 * 24 * 30` (30 days). -/
def expireSeconds (expires_at : Option Int) (now : Int) : Int :=
  match expires_at with
  | some e => e - now
  | none => 3600 * 24 * 30

/-- `create_short_url(original_url, short_code=None, expires_at=None)`:
choose the code, compute the TTL, `SETEX` the raw URL under `url:{code}` and
the metadata bundle under `meta:{code}` (both with the same TTL), and return
the shareable link `{base_url}/s/{code}` together with the resulting store.
The `except` clause re-raises, so a store failure propagates as `.error`. -/
def create_short_url (s : Store) (original_url : String)
    (short_code : Option String) (expires_at : Option Int) (now : Int)
    (r1 r2 : Nat) : Except Unit (String × Store) := do
  let code := chosenCode original_url short_code r1 r2
  let expire_seconds := expireSeconds expires_at now
  let s1 ← s.setex ("url:" ++ code) expire_seconds original_url
  let s2 ← s1.setex ("meta:" ++ code) expire_seconds
    (metaStr original_url now expires_at)
  return (base_url ++ "/s/" ++ code, s2)

/-- The body of `get_original_url`, i.e. its `try` block: `GET url:{code}`;
if the value is truthy (Python: a non-empty byte string), `INCR` the click
counter, `LPUSH` the timestamp onto the click log, `LTRIM` the log to its 100
most recent entries, and return the URL; otherwise return `None`. -/
def resolveBody (s : Store) (short_code : String) (now : Int) :
    Except Unit (Option String × Store) := do
  let v ← s.getV ("url:" ++ short_code)
  match v with
  | some (.vstr u _) =>
    if u = "" then
      pure (none, s)
    else do
      let s1 ← s.incr ("clicks:" ++ short_code)
      let s2 ← s1.lpush ("clicks_log:" ++ short_code) now
      let s3 ← s2.ltrim ("clicks_log:" ++ short_code) 0 99
      pure (some u, s3)
  | _ => pure (none, s)

/-- `get_original_url(short_code)`: the `try` body above; the broad `except`
catches any store failure and returns `None` (the store unchanged — under the
uniform-availability model the first command already failed). -/
def get_original_url (s : Store) (short_code : String) (now : Int) :
    Option String × Store :=
  match resolveBody s short_code now with
  | .ok r => r
  | .error _ => (none, s)

/-- The body of `get_url_stats`, i.e. its `try` block: `GET clicks:{code}`
(`int(click_count) if click_count else 0`), `LRANGE clicks_log:{code} 0 -1`,
`GET meta:{code}`, assembled into the stats dict.  No write is issued. -/
def statsBody (s : Store) (short_code : String) : Except Unit UrlStats := do
  let cc ← s.getV ("clicks:" ++ short_code)
  let click_count : Int :=
    match cc with
    | some (.vint n) => n
    | _ => 0
  let click_logs ← s.lrangeAll ("clicks_log:" ++ short_code)
  let md ← s.getV ("meta:" ++ short_code)
  let metadata : Option String :=
    match md with
    | some (.vstr m _) => some m
    | _ => none
  return { short_code := short_code, click_count := click_count,
           click_logs := click_logs, metadata := metadata }

/-- `get_url_stats(short_code)`: the stats dict, or `None` when the broad
`except` caught a store failure. -/
def get_url_stats (s : Store) (short_code : String) : Option UrlStats :=
  match statsBody s short_code with
  | .ok st => some st
  | .error _ => none

/-- The body of `delete_short_url`: `DEL` all four facets of the code. -/
def deleteBody (s : Store) (short_code : String) : Except Unit Store := do
  let s1 ← s.del ("url:" ++ short_code)
  let s2 ← s1.del ("meta:" ++ short_code)
  let s3 ← s2.del ("clicks:" ++ short_code)
  let s4 ← s3.del ("clicks_log:" ++ short_code)
  return s4

/-- `delete_short_url(short_code)`: `True` once the deletions were issued,
`False` when the broad `except` caught a store failure (store unchanged). -/
def delete_short_url (s : Store) (short_code : String) : Bool × Store :=
  match deleteBody s short_code with
  | .ok s' => (true, s')
  | .error _ => (false, s)

/-- Models `key.decode().replace("url:", "")` on the character list of the
key.  Python `str.replace` removes every left-to-right non-overlapping
occurrence of `"url:"`, not only a leading prefix. -/
def stripUrl : List Char → List Char
  | 'u' :: 'r' :: 'l' :: ':' :: rest => stripUrl rest
  | c :: rest => c :: stripUrl rest
  | [] => []

/-- The code `get_all_urls` reports for a store key. -/
def keyToCode (k : String) : String := ⟨stripUrl k.data⟩

/-- The loop body of `get_all_urls`: for each enumerated key, strip `"url:"`,
`GET` the key itself (`original_url.decode() if original_url else None` —
Python truthiness reports `None` for an empty stored byte string),
`GET meta:{stripped}` and `GET clicks:{stripped}`
(`int(click_count) if click_count else 0`), and build the entry dict. -/
def collectUrls (s : Store) : List String → Except Unit (List UrlEntry)
  | [] => .ok []
  | k :: rest => do
    let code := keyToCode k
    let ou ← s.getV k
    let md ← s.getV ("meta:" ++ code)
    let cc ← s.getV ("clicks:" ++ code)
    let tail ← collectUrls s rest
    let entry : UrlEntry :=
      { short_code := code
        original_url :=
          match ou with
          | some (.vstr u _) => if u = "" then none else some u
          | _ => none
        metadata :=
          match md with
          | some (.vstr m _) => some m
          | _ => none
        click_count :=
          match cc with
          | some (.vint n) => n
          | _ => 0 }
    return entry :: tail

/-- `get_all_urls()`: enumerate `KEYS "url:*"` and run the loop above; the
broad `except` turns any store failure into the empty list. -/
def get_all_urls (s : Store) : List UrlEntry :=
  match (do collectUrls s (← s.urlKeys) : Except Unit (List UrlEntry)) with
  | .ok es => es
  | .error _ => []

end URLService

/-! ## Observations on a store (the read paths of the service) -/

/-- The click counter a `GET clicks:{code}` observes, with the program's
`int(click_count) if click_count else 0` conversion. -/
def clicksOf (s : Store) (code : String) : Int :=
  match alookup ("clicks:" ++ code) s.entries with
  | some (.vint n) => n
  | _ => 0

/-- The click log a `LRANGE clicks_log:{code} 0 -1` observes. -/
def logOf (s : Store) (code : String) : List Int :=
  match alookup ("clicks_log:" ++ code) s.entries with
  | some (.vlist l) => l
  | _ => []

/-- The metadata a `GET meta:{code}` observes. -/
def metaOf (s : Store) (code : String) : Option String :=
  match alookup ("meta:" ++ code) s.entries with
  | some (.vstr m _) => some m
  | _ => none

/-- Iterated resolution of the same code at the given sequence of
timestamps (earliest first), keeping only the resulting store. -/
def URLService.resolveMany (s : Store) (code : String) : List Int → Store
  | [] => s
  | t :: ts => resolveMany (URLService.get_original_url s code t).2 code ts

/-- The entry the `get_all_urls` loop builds for an enumerated key.  The
`original_url` field models `original_url.decode() if original_url else None`:
Python truthiness makes an empty stored byte string report `None`. -/
def URLService.entryFor (s : Store) (k : String) : UrlEntry :=
  { short_code := URLService.keyToCode k
    original_url :=
      match alookup k s.entries with
      | some (.vstr u _) => if u = "" then none else some u
      | _ => none
    metadata :=
      match alookup ("meta:" ++ URLService.keyToCode k) s.entries with
      | some (.vstr m _) => some m
      | _ => none
    click_count :=
      match alookup ("clicks:" ++ URLService.keyToCode k) s.entries with
      | some (.vint n) => n
      | _ => 0 }

/-- The keys `KEYS "url:*"` enumerates, as a pure function of the store. -/
def URLService.urlKeysOf (s : Store) : List String :=
  (s.entries.map Prod.fst).filter (fun k => "url:".data.isPrefixOf k.data)

/-- Whether `"url:"` occurs as a substring of the character list. -/
def hasUrlSub : List Char → Bool
  | 'u' :: 'r' :: 'l' :: ':' :: _ => true
  | _ :: rest => hasUrlSub rest
  | [] => false

/-- The store `create_short_url` leaves behind on success (named for reuse in
statements): the two `SETEX` writes on an available store. -/
def URLService.createdStore (s : Store) (u : String) (sc : Option String)
    (exp : Option Int) (now : Int) (r1 r2 : Nat) : Store :=
  ⟨true,
   aset ("meta:" ++ URLService.chosenCode u sc r1 r2)
     (.vstr (metaStr u now exp) (URLService.expireSeconds exp now))
     (aset ("url:" ++ URLService.chosenCode u sc r1 r2)
       (.vstr u (URLService.expireSeconds exp now)) s.entries)⟩

/-! ## Association-list and key lemmas -/

theorem alookup_aset_self (k : String) (v : RVal) :
    ∀ l, alookup k (aset k v l) = some v
  | [] => by simp [aset, alookup]
  | (k', v') :: rest => by
    by_cases h : k' = k
    · simp [aset, h, alookup]
    · simp [aset, h, alookup, alookup_aset_self k v rest]

theorem alookup_aset_ne {k' k : String} (h : k' ≠ k) (v : RVal) :
    ∀ l, alookup k' (aset k v l) = alookup k' l
  | [] => by simp [aset, alookup, Ne.symm h]
  | (k'', v'') :: rest => by
    by_cases h2 : k'' = k
    · subst h2
      simp [aset, alookup, Ne.symm h]
    · simp [aset, h2, alookup, alookup_aset_ne h v rest]

theorem alookup_adel_self (k : String) :
    ∀ l, alookup k (adel k l) = none
  | [] => by simp [adel, alookup]
  | (k', v') :: rest => by
    by_cases h : k' = k
    · simp [adel, h, alookup_adel_self k rest]
    · simp [adel, h, alookup, alookup_adel_self k rest]

theorem alookup_adel_ne {k' k : String} (h : k' ≠ k) :
    ∀ l, alookup k' (adel k l) = alookup k' l
  | [] => by simp [adel, alookup]
  | (k'', v'') :: rest => by
    by_cases h2 : k'' = k
    · subst h2
      simp [adel, alookup, Ne.symm h, alookup_adel_ne h rest]
    · simp [adel, h2, alookup, alookup_adel_ne h rest]

theorem alookup_eq_none_iff (k : String) :
    ∀ l : List (String × RVal), alookup k l = none ↔ k ∉ l.map Prod.fst
  | [] => by simp [alookup]
  | (k', v') :: rest => by
    by_cases h : k' = k
    · simp [alookup, h]
    · simp [alookup, h, alookup_eq_none_iff k rest, Ne.symm h]

theorem urlKey_ne_metaKey (c c' : String) : "url:" ++ c ≠ "meta:" ++ c' := by
  intro h
  have h2 : ("url:" ++ c).data = ("meta:" ++ c').data := congrArg String.data h
  rw [String.data_append, String.data_append] at h2
  have e1 : "url:".data = ['u', 'r', 'l', ':'] := rfl
  have e2 : "meta:".data = ['m', 'e', 't', 'a', ':'] := rfl
  rw [e1, e2] at h2
  simp at h2

theorem urlKey_ne_clicksKey (c c' : String) : "url:" ++ c ≠ "clicks:" ++ c' := by
  intro h
  have h2 : ("url:" ++ c).data = ("clicks:" ++ c').data := congrArg String.data h
  rw [String.data_append, String.data_append] at h2
  have e1 : "url:".data = ['u', 'r', 'l', ':'] := rfl
  have e2 : "clicks:".data = ['c', 'l', 'i', 'c', 'k', 's', ':'] := rfl
  rw [e1, e2] at h2
  simp at h2

theorem urlKey_ne_logKey (c c' : String) : "url:" ++ c ≠ "clicks_log:" ++ c' := by
  intro h
  have h2 : ("url:" ++ c).data = ("clicks_log:" ++ c').data := congrArg String.data h
  rw [String.data_append, String.data_append] at h2
  have e1 : "url:".data = ['u', 'r', 'l', ':'] := rfl
  have e2 : "clicks_log:".data =
    ['c', 'l', 'i', 'c', 'k', 's', '_', 'l', 'o', 'g', ':'] := rfl
  rw [e1, e2] at h2
  simp at h2

theorem metaKey_ne_clicksKey (c c' : String) : "meta:" ++ c ≠ "clicks:" ++ c' := by
  intro h
  have h2 : ("meta:" ++ c).data = ("clicks:" ++ c').data := congrArg String.data h
  rw [String.data_append, String.data_append] at h2
  have e1 : "meta:".data = ['m', 'e', 't', 'a', ':'] := rfl
  have e2 : "clicks:".data = ['c', 'l', 'i', 'c', 'k', 's', ':'] := rfl
  rw [e1, e2] at h2
  simp at h2

theorem metaKey_ne_logKey (c c' : String) : "meta:" ++ c ≠ "clicks_log:" ++ c' := by
  intro h
  have h2 : ("meta:" ++ c).data = ("clicks_log:" ++ c').data := congrArg String.data h
  rw [String.data_append, String.data_append] at h2
  have e1 : "meta:".data = ['m', 'e', 't', 'a', ':'] := rfl
  have e2 : "clicks_log:".data =
    ['c', 'l', 'i', 'c', 'k', 's', '_', 'l', 'o', 'g', ':'] := rfl
  rw [e1, e2] at h2
  simp at h2

theorem clicksKey_ne_logKey (c c' : String) :
    "clicks:" ++ c ≠ "clicks_log:" ++ c' := by
  intro h
  have h2 : ("clicks:" ++ c).data = ("clicks_log:" ++ c').data :=
    congrArg String.data h
  rw [String.data_append, String.data_append] at h2
  have e1 : "clicks:".data = ['c', 'l', 'i', 'c', 'k', 's', ':'] := rfl
  have e2 : "clicks_log:".data =
    ['c', 'l', 'i', 'c', 'k', 's', '_', 'l', 'o', 'g', ':'] := rfl
  rw [e1, e2] at h2
  simp at h2

/-- Injectivity of `"url:" + code` in the code. -/
theorem urlKey_inj {c c' : String} (h : "url:" ++ c = "url:" ++ c') : c = c' := by
  have h2 : ("url:" ++ c).data = ("url:" ++ c').data := congrArg String.data h
  rw [String.data_append, String.data_append] at h2
  have e1 : "url:".data = ['u', 'r', 'l', ':'] := rfl
  rw [e1] at h2
  simp at h2
  exact String.ext h2

/-! ## Behaviour of the service methods -/

namespace URLService

/-- On an available store, `create_short_url` returns the shareable link and
writes exactly the two `SETEX` entries, both with `expireSeconds`. -/
theorem create_ok (s : Store) (u : String) (sc : Option String)
    (exp : Option Int) (now : Int) (r1 r2 : Nat) (hav : s.avail = true) :
    create_short_url s u sc exp now r1 r2 =
      .ok (base_url ++ "/s/" ++ chosenCode u sc r1 r2,
        createdStore s u sc exp now r1 r2) := by
  simp [create_short_url, Store.setex, createdStore, hav, bind, Except.bind,
    pure, Except.pure]

/-- `get_original_url` on a code with no `url:` entry returns `None` and
leaves the store untouched (whether or not the store is available). -/
theorem resolve_miss (s : Store) (c : String) (t : Int)
    (h : alookup ("url:" ++ c) s.entries = none) :
    get_original_url s c t = (none, s) := by
  cases hav : s.avail with
  | false =>
    simp [get_original_url, resolveBody, Store.getV, hav, bind, Except.bind]
  | true =>
    simp [get_original_url, resolveBody, Store.getV, hav, h, bind, Except.bind,
      pure, Except.pure]

/-- `get_original_url` on a live code with a non-empty stored URL: returns the
URL, increments the counter, pushes the timestamp, trims the log to 100. -/
theorem resolve_hit (s : Store) (c u : String) (ttl : Int) (t : Int)
    (hav : s.avail = true) (hu : u ≠ "")
    (hl : alookup ("url:" ++ c) s.entries = some (.vstr u ttl)) :
    get_original_url s c t =
      (some u,
       { avail := true,
         entries :=
           aset ("clicks_log:" ++ c) (.vlist ((t :: logOf s c).take 100))
             (aset ("clicks_log:" ++ c) (.vlist (t :: logOf s c))
               (aset ("clicks:" ++ c) (.vint (clicksOf s c + 1)) s.entries)) }) := by
  have hne : ("clicks_log:" ++ c) ≠ ("clicks:" ++ c) :=
    Ne.symm (clicksKey_ne_logKey c c)
  cases hlog : alookup ("clicks_log:" ++ c) s.entries with
  | none =>
    simp [get_original_url, resolveBody, Store.getV, Store.incr, Store.lpush,
      Store.ltrim, hav, hl, bind, Except.bind, pure, Except.pure, if_neg hu,
      clicksOf, logOf, alookup_aset_ne hne, hlog, alookup_aset_self]
  | some v =>
    cases v <;>
      simp [get_original_url, resolveBody, Store.getV, Store.incr, Store.lpush,
        Store.ltrim, hav, hl, bind, Except.bind, pure, Except.pure, if_neg hu,
        clicksOf, logOf, alookup_aset_ne hne, hlog, alookup_aset_self]

/-- Truncating before appending on the right of a `take` does not change the
result. -/
theorem take_append_take (a b : List Int) (n : Nat) :
    (a ++ b.take n).take n = (a ++ b).take n := by
  rw [List.take_append_eq_append_take, List.take_append_eq_append_take,
    List.take_take]
  congr 1
  congr 1
  exact Nat.min_eq_left (Nat.sub_le n a.length)

/-- The invariant of iterated resolution on a live code whose log is within
its cap: availability and the `url:` and `meta:` entries persist, the counter
advances by the number of resolutions, and the log becomes the reversed
timestamps prepended to the old log, truncated to its 100 most recent
entries. -/
theorem resolveMany_obs (code u : String) (ttl : Int) (hu : u ≠ "") :
    ∀ (ts : List Int) (s : Store), s.avail = true →
      alookup ("url:" ++ code) s.entries = some (.vstr u ttl) →
      (logOf s code).length ≤ 100 →
      (resolveMany s code ts).avail = true ∧
      alookup ("url:" ++ code) (resolveMany s code ts).entries =
        some (.vstr u ttl) ∧
      clicksOf (resolveMany s code ts) code = clicksOf s code + ts.length ∧
      logOf (resolveMany s code ts) code =
        (ts.reverse ++ logOf s code).take 100 ∧
      metaOf (resolveMany s code ts) code = metaOf s code
  | [], s, hav, hl, hcap => by
    refine ⟨hav, hl, by simp [resolveMany], ?_, rfl⟩
    simp [resolveMany, List.take_of_length_le hcap]
  | t :: ts, s, hav, hl, hcap => by
    have hres := resolve_hit s code u ttl t hav hu hl
    have h2 : (get_original_url s code t).2 =
        ⟨true,
         aset ("clicks_log:" ++ code) (.vlist ((t :: logOf s code).take 100))
           (aset ("clicks_log:" ++ code) (.vlist (t :: logOf s code))
             (aset ("clicks:" ++ code) (.vint (clicksOf s code + 1))
               s.entries))⟩ := by
      rw [hres]
    have hav1 : (get_original_url s code t).2.avail = true := by rw [h2]
    have hl1 : alookup ("url:" ++ code) (get_original_url s code t).2.entries =
        some (.vstr u ttl) := by
      simp only [h2, alookup_aset_ne (urlKey_ne_logKey code code),
        alookup_aset_ne (urlKey_ne_clicksKey code code), hl]
    have hc1 : clicksOf (get_original_url s code t).2 code =
        clicksOf s code + 1 := by
      simp only [clicksOf, h2, alookup_aset_ne (clicksKey_ne_logKey code code),
        alookup_aset_self]
    have hg1 : logOf (get_original_url s code t).2 code =
        (t :: logOf s code).take 100 := by
      simp only [logOf, h2, alookup_aset_self]
    have hm1 : metaOf (get_original_url s code t).2 code = metaOf s code := by
      simp only [metaOf, h2, alookup_aset_ne (metaKey_ne_logKey code code),
        alookup_aset_ne (metaKey_ne_clicksKey code code)]
    have hcap1 : (logOf (get_original_url s code t).2 code).length ≤ 100 := by
      rw [hg1]
      exact List.length_take_le _ _
    obtain ⟨ha, hb, hc, hd, he⟩ :=
      resolveMany_obs code u ttl hu ts (get_original_url s code t).2 hav1 hl1 hcap1
    refine ⟨ha, hb, ?_, ?_, ?_⟩
    · rw [show resolveMany s code (t :: ts) =
          resolveMany (get_original_url s code t).2 code ts from rfl, hc, hc1]
      simp only [List.length_cons]
      push_cast
      ring
    · rw [show resolveMany s code (t :: ts) =
          resolveMany (get_original_url s code t).2 code ts from rfl, hd, hg1]
      rw [take_append_take, List.reverse_cons, List.append_assoc]
      simp
    · rw [show resolveMany s code (t :: ts) =
          resolveMany (get_original_url s code t).2 code ts from rfl, he, hm1]

end URLService

/-! ## Behaviour of `get_all_urls` -/

namespace URLService

theorem collect_ok (s : Store) (hav : s.avail = true) :
    ∀ ks : List String, collectUrls s ks = .ok (ks.map (entryFor s))
  | [] => by simp [collectUrls]
  | k :: rest => by
    simp [collectUrls, Store.getV, hav, bind, Except.bind, pure, Except.pure,
      entryFor, collect_ok s hav rest]

/-- On an available store, `get_all_urls` is exactly the per-key entry map
over the `url:`-prefixed keys. -/
theorem get_all_urls_eq (s : Store) (hav : s.avail = true) :
    get_all_urls s = (urlKeysOf s).map (entryFor s) := by
  simp [get_all_urls, Store.urlKeys, hav, urlKeysOf, collect_ok s hav,
    bind, Except.bind]

end URLService

/-- A `url:`-prefixed key indeed passes the `KEYS "url:*"` filter. -/
theorem urlKey_isPrefix (c : String) :
    "url:".data.isPrefixOf ("url:" ++ c).data = true := by
  rw [String.data_append]
  exact List.isPrefixOf_iff_prefix.mpr (List.prefix_append _ _)

/-- Membership in the enumerated key list. -/
theorem mem_urlKeysOf (s : Store) (k : String) :
    k ∈ URLService.urlKeysOf s ↔
      k ∈ s.entries.map Prod.fst ∧ "url:".data.isPrefixOf k.data = true := by
  simp [URLService.urlKeysOf, List.mem_filter]

/-! ## `str.replace("url:", "")` -/

/-- On input without any `"url:"` occurrence, the replace is the identity. -/
theorem stripUrl_of_not_hasUrlSub :
    ∀ l : List Char, hasUrlSub l = false → URLService.stripUrl l = l := by
  intro l
  induction l using URLService.stripUrl.induct with
  | case1 rest ih =>
    intro h
    rw [hasUrlSub] at h
    exact absurd h (by simp)
  | case2 c rest hne ih =>
    intro h
    have h2 : hasUrlSub rest = false := by
      rw [hasUrlSub] at h
      · exact h
      · exact hne
    rw [URLService.stripUrl]
    · rw [ih h2]
    · exact hne
  | case3 =>
    intro _
    rfl

/-- A leading `"url:"` is removed, and a code with no further `"url:"`
occurrence is reported verbatim. -/
theorem keyToCode_urlKey (c : String) (h : hasUrlSub c.data = false) :
    URLService.keyToCode ("url:" ++ c) = c := by
  have hs : URLService.stripUrl ("url:" ++ c).data = c.data := by
    rw [String.data_append]
    have e1 : "url:".data = ['u', 'r', 'l', ':'] := rfl
    rw [e1]
    exact stripUrl_of_not_hasUrlSub c.data h
  rw [URLService.keyToCode, hs]

/-! ## Shape facts about the generated code -/

theorem bytesToHex_length : ∀ bs : List Nat,
    (bytesToHex bs).length = 2 * bs.length
  | [] => rfl
  | b :: rest => by
    show (hexChar (b / 16) :: hexChar (b % 16) :: bytesToHex rest).length =
      2 * (b :: rest).length
    simp [bytesToHex_length rest]
    ring

theorem md5Bytes_length (msg : List Nat) : (md5Bytes msg).length = 16 := by
  simp [md5Bytes, wordLE]

theorem md5Bytes_lt (msg : List Nat) : ∀ b ∈ md5Bytes msg, b < 256 := by
  intro b hb
  simp [md5Bytes, wordLE] at hb
  rcases hb with rfl | rfl | rfl | rfl | rfl | rfl | rfl | rfl | rfl | rfl |
    rfl | rfl | rfl | rfl | rfl | rfl <;> exact Nat.mod_lt _ (by omega)

theorem hexChar_mem : ∀ n : Nat, n < 16 → hexChar n ∈ "0123456789abcdef".data := by
  decide

theorem bytesToHex_mem_hex : ∀ bs : List Nat, (∀ b ∈ bs, b < 256) →
    ∀ c ∈ bytesToHex bs, c ∈ "0123456789abcdef".data
  | [], _ => by simp [bytesToHex]
  | b :: rest, hb => by
    intro c hc
    simp [bytesToHex] at hc
    rcases hc with h | h | h
    · rw [h]
      refine hexChar_mem _ ?_
      have : b < 256 := hb b (by simp)
      omega
    · rw [h]
      exact hexChar_mem _ (Nat.mod_lt _ (by omega))
    · exact bytesToHex_mem_hex rest (fun x hx => hb x (by simp [hx])) c
        (by simpa [bytesToHex] using h)

theorem asciiLettersDigits_getD_mem :
    ∀ i : Nat, i < 62 → asciiLettersDigits.getD i 'a' ∈ asciiLettersDigits := by
  decide

/-- On an available store, `delete_short_url` reports success and removes
exactly the four facet keys. -/
theorem delete_eq (s : Store) (c : String) (hav : s.avail = true) :
    URLService.delete_short_url s c =
      (true,
       { avail := true,
         entries :=
           adel ("clicks_log:" ++ c) (adel ("clicks:" ++ c)
             (adel ("meta:" ++ c) (adel ("url:" ++ c) s.entries))) }) := by
  simp [URLService.delete_short_url, URLService.deleteBody, Store.del, hav,
    bind, Except.bind, pure, Except.pure]

/-! ## The claims -/

/-- C3: resolving a code with no target-URL entry in the store returns absent
and leaves the store state completely unchanged — no counter, log, or any
other entry is created or modified. -/
theorem C3_resolve_missing_frame (s : Store) (c : String) (t : Int)
    (h : alookup ("url:" ++ c) s.entries = none) :
    URLService.get_original_url s c t = (none, s) :=
  URLService.resolve_miss s c t h

/-- Witness for C3 at a concrete store and code. -/
theorem C3_witness :
    alookup ("url:" ++ "a") (Store.mk true [("meta:a", .vstr "m" 7)]).entries =
      none ∧
    URLService.get_original_url ⟨true, [("meta:a", .vstr "m" 7)]⟩ "a" 0 =
      (none, ⟨true, [("meta:a", .vstr "m" 7)]⟩) :=
  ⟨by decide,
   C3_resolve_missing_frame ⟨true, [("meta:a", .vstr "m" 7)]⟩ "a" 0 (by decide)⟩

/-- C4 (counterexample): the claim says `get_stats` returns `None`/absent when
neither a click-count record nor a URL record exists for the code; on the
empty (reachable) store the code instead returns a populated record with
`click_count = 0`. -/
theorem C4_counterexample :
    URLService.get_url_stats ⟨true, []⟩ "x" =
      some { short_code := "x", click_count := 0, click_logs := [],
             metadata := none } := by
  rfl

/-- C4 (amended): whenever the store is reachable, `get_url_stats` returns a
record for every code — even one with no click-count and no URL record, which
reports `click_count = 0` — containing the code, the counter (0 if absent),
the click log exactly as stored (most-recent-first as maintained by
resolution), and the metadata (absent if none); it returns `None` exactly
when the store call fails. -/
theorem C4_stats_total (s : Store) (c : String) :
    (s.avail = true →
      URLService.get_url_stats s c =
        some { short_code := c, click_count := clicksOf s c,
               click_logs := logOf s c, metadata := metaOf s c }) ∧
    (s.avail = false → URLService.get_url_stats s c = none) := by
  constructor
  · intro hav
    simp [URLService.get_url_stats, URLService.statsBody, Store.getV,
      Store.lrangeAll, hav, bind, Except.bind, pure, Except.pure,
      clicksOf, logOf, metaOf]
  · intro hav
    simp [URLService.get_url_stats, URLService.statsBody, Store.getV, hav,
      bind, Except.bind]

/-- Witness for C4 (amended) at a concrete store and code. -/
theorem C4_witness :
    (Store.mk true [("clicks:z", .vint 3)]).avail = true ∧
    URLService.get_url_stats ⟨true, [("clicks:z", .vint 3)]⟩ "z" =
      some { short_code := "z",
             click_count := clicksOf ⟨true, [("clicks:z", .vint 3)]⟩ "z",
             click_logs := logOf ⟨true, [("clicks:z", .vint 3)]⟩ "z",
             metadata := metaOf ⟨true, [("clicks:z", .vint 3)]⟩ "z" } :=
  ⟨rfl, (C4_stats_total ⟨true, [("clicks:z", .vint 3)]⟩ "z").1 rfl⟩

/-- C5: when the store is unavailable, `create` propagates the failure as a
hard error while `resolve`, `get_stats`, `list_all` and `delete` swallow it
and return their respective "nothing found" values (absent, absent, empty
sequence, false). -/
theorem C5_failure_asymmetry (s : Store) (u c : String) (sc : Option String)
    (exp : Option Int) (now t : Int) (r1 r2 : Nat) (hav : s.avail = false) :
    URLService.create_short_url s u sc exp now r1 r2 = .error () ∧
    URLService.get_original_url s c t = (none, s) ∧
    URLService.get_url_stats s c = none ∧
    URLService.get_all_urls s = [] ∧
    URLService.delete_short_url s c = (false, s) := by
  refine ⟨?_, ?_, ?_, ?_, ?_⟩ <;>
    simp [URLService.create_short_url, URLService.get_original_url,
      URLService.resolveBody, URLService.get_url_stats, URLService.statsBody,
      URLService.get_all_urls, URLService.collectUrls,
      URLService.delete_short_url, URLService.deleteBody, Store.getV,
      Store.setex, Store.del, Store.urlKeys, hav, bind, Except.bind]

/-- Witness for C5 at a concrete unavailable store. -/
theorem C5_witness :
    (Store.mk false [("url:a", .vstr "http://x" 9)]).avail = false ∧
    URLService.create_short_url ⟨false, [("url:a", .vstr "http://x" 9)]⟩
      "http://y" (some "b") none 0 0 0 = .error () ∧
    URLService.get_original_url ⟨false, [("url:a", .vstr "http://x" 9)]⟩
      "a" 0 = (none, ⟨false, [("url:a", .vstr "http://x" 9)]⟩) ∧
    URLService.get_url_stats ⟨false, [("url:a", .vstr "http://x" 9)]⟩ "a" =
      none ∧
    URLService.get_all_urls ⟨false, [("url:a", .vstr "http://x" 9)]⟩ = [] ∧
    URLService.delete_short_url ⟨false, [("url:a", .vstr "http://x" 9)]⟩ "a" =
      (false, ⟨false, [("url:a", .vstr "http://x" 9)]⟩) :=
  ⟨rfl, C5_failure_asymmetry ⟨false, [("url:a", .vstr "http://x" 9)]⟩
    "http://y" "a" (some "b") none 0 0 0 0 rfl⟩

/-- C6: the TTL is `expires_at - now` when `expires_at` is supplied (possibly
zero or negative) and exactly 2,592,000 seconds (30 days) otherwise, and both
store writes — the raw URL entry and the metadata bundle carrying the target
URL, `created_at = now` and `expires_at` — are issued with this identical
TTL. -/
theorem C6_ttl_computation (s : Store) (u : String) (sc : Option String)
    (exp : Option Int) (now : Int) (r1 r2 : Nat) (hav : s.avail = true) :
    ∃ (link : String) (s1 : Store),
      URLService.create_short_url s u sc exp now r1 r2 = .ok (link, s1) ∧
      alookup ("url:" ++ URLService.chosenCode u sc r1 r2) s1.entries =
        some (.vstr u (URLService.expireSeconds exp now)) ∧
      alookup ("meta:" ++ URLService.chosenCode u sc r1 r2) s1.entries =
        some (.vstr (metaStr u now exp) (URLService.expireSeconds exp now)) ∧
      (∀ e : Int, exp = some e → URLService.expireSeconds exp now = e - now) ∧
      (exp = none → URLService.expireSeconds exp now = 2592000) := by
  refine ⟨_, _, URLService.create_ok s u sc exp now r1 r2 hav, ?_, ?_, ?_, ?_⟩
  · simp only [URLService.createdStore]
    rw [alookup_aset_ne (urlKey_ne_metaKey _ _), alookup_aset_self]
  · simp only [URLService.createdStore]
    rw [alookup_aset_self]
  · intro e he
    subst he
    rfl
  · intro he
    subst he
    norm_num [URLService.expireSeconds]

/-- Witness for C6 at a concrete store with a past expiry timestamp. -/
theorem C6_witness :
    (Store.mk true []).avail = true ∧
    (∃ (link : String) (s1 : Store),
      URLService.create_short_url ⟨true, []⟩ "http://x" (some "c7")
        (some 5) 9 0 0 = .ok (link, s1) ∧
      alookup ("url:" ++ URLService.chosenCode "http://x" (some "c7") 0 0)
        s1.entries =
        some (.vstr "http://x" (URLService.expireSeconds (some 5) 9)) ∧
      alookup ("meta:" ++ URLService.chosenCode "http://x" (some "c7") 0 0)
        s1.entries =
        some (.vstr (metaStr "http://x" 9 (some 5))
          (URLService.expireSeconds (some 5) 9)) ∧
      (∀ e : Int, (some 5 : Option Int) = some e →
        URLService.expireSeconds (some 5) 9 = e - 9) ∧
      ((some 5 : Option Int) = none →
        URLService.expireSeconds (some 5) 9 = 2592000)) :=
  ⟨rfl, C6_ttl_computation ⟨true, []⟩ "http://x" (some "c7") (some 5) 9 0 0 rfl⟩

/-- C7: `delete` unconditionally issues deletion of all four facets and
reports success whenever the deletions are issued, regardless of prior
existence; resolving the code afterwards returns absent. -/
theorem C7_delete_unconditional (s : Store) (c : String) (t : Int)
    (hav : s.avail = true) :
    ∃ s1 : Store,
      URLService.delete_short_url s c = (true, s1) ∧
      alookup ("url:" ++ c) s1.entries = none ∧
      alookup ("meta:" ++ c) s1.entries = none ∧
      alookup ("clicks:" ++ c) s1.entries = none ∧
      alookup ("clicks_log:" ++ c) s1.entries = none ∧
      (URLService.get_original_url s1 c t).1 = none := by
  have h1 : alookup ("url:" ++ c)
      (adel ("clicks_log:" ++ c) (adel ("clicks:" ++ c)
        (adel ("meta:" ++ c) (adel ("url:" ++ c) s.entries)))) = none := by
    rw [alookup_adel_ne (urlKey_ne_logKey c c),
      alookup_adel_ne (urlKey_ne_clicksKey c c),
      alookup_adel_ne (urlKey_ne_metaKey c c), alookup_adel_self]
  refine ⟨_, delete_eq s c hav, h1, ?_, ?_, ?_, ?_⟩
  · rw [alookup_adel_ne (metaKey_ne_logKey c c),
      alookup_adel_ne (metaKey_ne_clicksKey c c), alookup_adel_self]
  · rw [alookup_adel_ne (clicksKey_ne_logKey c c), alookup_adel_self]
  · rw [alookup_adel_self]
  · rw [URLService.resolve_miss _ c t h1]

/-- Witness for C7 at a concrete store where only metadata and counter
exist. -/
theorem C7_witness :
    (Store.mk true [("meta:a", .vstr "m" 7), ("clicks:a", .vint 3)]).avail =
      true ∧
    (∃ s1 : Store,
      URLService.delete_short_url
        ⟨true, [("meta:a", .vstr "m" 7), ("clicks:a", .vint 3)]⟩ "a" =
        (true, s1) ∧
      alookup ("url:" ++ "a") s1.entries = none ∧
      alookup ("meta:" ++ "a") s1.entries = none ∧
      alookup ("clicks:" ++ "a") s1.entries = none ∧
      alookup ("clicks_log:" ++ "a") s1.entries = none ∧
      (URLService.get_original_url s1 "a" 4).1 = none) :=
  ⟨rfl, C7_delete_unconditional
    ⟨true, [("meta:a", .vstr "m" 7), ("clicks:a", .vint 3)]⟩ "a" 4 rfl⟩

/-- Any successful creation leaves an available store in which resolving the
chosen code immediately returns the stored URL. -/
theorem create_then_resolve (s : Store) (u : String) (sc : Option String)
    (exp : Option Int) (now t : Int) (r1 r2 : Nat) (hav : s.avail = true)
    (hu : u ≠ "") (link : String) (s1 : Store)
    (hcr : URLService.create_short_url s u sc exp now r1 r2 = .ok (link, s1)) :
    s1.avail = true ∧
    (URLService.get_original_url s1 (URLService.chosenCode u sc r1 r2) t).1 =
      some u := by
  rw [URLService.create_ok s u sc exp now r1 r2 hav] at hcr
  injection hcr with hp
  injection hp with hlink hs1
  subst hs1
  have hav1 : (URLService.createdStore s u sc exp now r1 r2).avail = true := rfl
  have hl : alookup ("url:" ++ URLService.chosenCode u sc r1 r2)
      (URLService.createdStore s u sc exp now r1 r2).entries =
      some (.vstr u (URLService.expireSeconds exp now)) := by
    simp only [URLService.createdStore]
    rw [alookup_aset_ne (urlKey_ne_metaKey _ _), alookup_aset_self]
  refine ⟨hav1, ?_⟩
  rw [URLService.resolve_hit _ _ u (URLService.expireSeconds exp now) t
    hav1 hu hl]

/-- C1: read-your-write with last-write-wins — immediately after a successful
creation, resolving the chosen code returns the created target URL; when the
same custom code is used in a second creation with a different target URL,
the second creation silently overwrites the first, and resolving returns the
second URL. -/
theorem C1_read_your_write :
    (∀ (s : Store) (u : String) (sc : Option String) (exp : Option Int)
        (now t : Int) (r1 r2 : Nat),
      s.avail = true → u ≠ "" →
      ∃ (link : String) (s1 : Store),
        URLService.create_short_url s u sc exp now r1 r2 = .ok (link, s1) ∧
        (URLService.get_original_url s1
          (URLService.chosenCode u sc r1 r2) t).1 = some u) ∧
    (∀ (s : Store) (u1 u2 c : String) (exp1 exp2 : Option Int)
        (now1 now2 t : Int) (link1 link2 : String) (s1 s2 : Store),
      s.avail = true → u2 ≠ "" → c ≠ "" →
      URLService.create_short_url s u1 (some c) exp1 now1 0 0 =
        .ok (link1, s1) →
      URLService.create_short_url s1 u2 (some c) exp2 now2 0 0 =
        .ok (link2, s2) →
      (URLService.get_original_url s2 c t).1 = some u2) := by
  constructor
  · intro s u sc exp now t r1 r2 hav hu
    exact ⟨_, _, URLService.create_ok s u sc exp now r1 r2 hav,
      (create_then_resolve s u sc exp now t r1 r2 hav hu _ _
        (URLService.create_ok s u sc exp now r1 r2 hav)).2⟩
  · intro s u1 u2 c exp1 exp2 now1 now2 t link1 link2 s1 s2 hav hu2 hc
      hcr1 hcr2
    have hav1 : s1.avail = true := by
      rw [URLService.create_ok s u1 (some c) exp1 now1 0 0 hav] at hcr1
      injection hcr1 with hp
      injection hp with hlink hs1
      rw [← hs1]
      rfl
    have h2 := (create_then_resolve s1 u2 (some c) exp2 now2 t 0 0 hav1 hu2
      link2 s2 hcr2).2
    rwa [show URLService.chosenCode u2 (some c) 0 0 = c by
      simp [URLService.chosenCode, hc]] at h2

/-- Witness for C1 on a store where the code is already bound. -/
theorem C1_witness :
    (Store.mk true [("url:abc123", .vstr "http://old" 5)]).avail = true ∧
    "http://new" ≠ "" ∧
    (∃ (link : String) (s1 : Store),
      URLService.create_short_url ⟨true, [("url:abc123", .vstr "http://old" 5)]⟩
        "http://new" (some "abc123") none 0 0 0 = .ok (link, s1) ∧
      (URLService.get_original_url s1
        (URLService.chosenCode "http://new" (some "abc123") 0 0) 3).1 =
        some "http://new") :=
  ⟨rfl, by decide,
   C1_read_your_write.1 ⟨true, [("url:abc123", .vstr "http://old" 5)]⟩
     "http://new" (some "abc123") none 0 3 0 0 rfl (by decide)⟩

/-- C2: each successful resolution of a live code returns the stored target
URL, increments the click counter by one, pushes the timestamp onto the head
of the click log and truncates the log to its 100 most recent entries; hence
after `n` successful resolutions starting from a freshly created code (no
counter, no log) the click count equals `n` and the log is the reversed
timestamp sequence truncated to 100 — most recent first, of length
`min n 100`. -/
theorem C2_click_accounting :
    (∀ (s : Store) (code u : String) (ttl t : Int),
      s.avail = true → u ≠ "" →
      alookup ("url:" ++ code) s.entries = some (.vstr u ttl) →
      (URLService.get_original_url s code t).1 = some u ∧
      clicksOf (URLService.get_original_url s code t).2 code =
        clicksOf s code + 1 ∧
      logOf (URLService.get_original_url s code t).2 code =
        (t :: logOf s code).take 100) ∧
    (∀ (s : Store) (code u : String) (ttl : Int) (ts : List Int),
      s.avail = true → u ≠ "" →
      alookup ("url:" ++ code) s.entries = some (.vstr u ttl) →
      alookup ("clicks:" ++ code) s.entries = none →
      alookup ("clicks_log:" ++ code) s.entries = none →
      clicksOf (URLService.resolveMany s code ts) code = ts.length ∧
      logOf (URLService.resolveMany s code ts) code = ts.reverse.take 100 ∧
      (logOf (URLService.resolveMany s code ts) code).length =
        min ts.length 100) := by
  constructor
  · intro s code u ttl t hav hu hl
    rw [URLService.resolve_hit s code u ttl t hav hu hl]
    refine ⟨rfl, ?_, ?_⟩
    · simp only [clicksOf, alookup_aset_ne (clicksKey_ne_logKey code code),
        alookup_aset_self]
    · simp only [logOf, alookup_aset_self]
  · intro s code u ttl ts hav hu hl hcnt hlog
    have hc0 : clicksOf s code = 0 := by simp [clicksOf, hcnt]
    have hl0 : logOf s code = [] := by simp [logOf, hlog]
    have hcap : (logOf s code).length ≤ 100 := by simp [hl0]
    obtain ⟨_, _, hc, hd, _⟩ :=
      URLService.resolveMany_obs code u ttl hu ts s hav hl hcap
    have hd2 : logOf (URLService.resolveMany s code ts) code =
        ts.reverse.take 100 := by
      rw [hd, hl0, List.append_nil]
    refine ⟨?_, hd2, ?_⟩
    · rw [hc, hc0]
      simp
    · rw [hd2, List.length_take, List.length_reverse]
      exact Nat.min_comm 100 ts.length
/-- Witness for C2: three resolutions of a freshly created code. -/
theorem C2_witness :
    (Store.mk true [("url:k", .vstr "http://x" 9)]).avail = true ∧
    alookup ("url:" ++ "k")
      (Store.mk true [("url:k", .vstr "http://x" 9)]).entries =
      some (.vstr "http://x" 9) ∧
    clicksOf (URLService.resolveMany ⟨true, [("url:k", .vstr "http://x" 9)]⟩
      "k" [4, 5, 6]) "k" = ([4, 5, 6] : List Int).length ∧
    logOf (URLService.resolveMany ⟨true, [("url:k", .vstr "http://x" 9)]⟩
      "k" [4, 5, 6]) "k" = ([4, 5, 6] : List Int).reverse.take 100 :=
  ⟨rfl, by decide,
   (C2_click_accounting.2 ⟨true, [("url:k", .vstr "http://x" 9)]⟩ "k"
     "http://x" 9 [4, 5, 6] rfl (by decide) (by decide) (by decide)
     (by decide)).1,
   (C2_click_accounting.2 ⟨true, [("url:k", .vstr "http://x" 9)]⟩ "k"
     "http://x" 9 [4, 5, 6] rfl (by decide) (by decide) (by decide)
     (by decide)).2.1⟩

/-- C8: `get_all_urls` is driven solely by the prefix scan of `url:` keys —
every code with a live URL entry contributes exactly one entry, codes whose
URL entry is absent (e.g. expired) contribute none even if metadata or
counter remain, and an included entry with absent counter or metadata reports
`click_count = 0` / `metadata = None` rather than being excluded.  The entry
reports the stored URL itself whenever it is non-empty (Python truthiness
reports `None` for an empty stored byte string). -/
theorem C8_list_all (s : Store) (hav : s.avail = true)
    (hnd : (s.entries.map Prod.fst).Nodup) :
    (URLService.get_all_urls s).map (fun e => e.short_code) =
      (URLService.urlKeysOf s).map URLService.keyToCode ∧
    (URLService.get_all_urls s).length = (URLService.urlKeysOf s).length ∧
    (∀ (c u : String) (ttl : Int),
      alookup ("url:" ++ c) s.entries = some (.vstr u ttl) → u ≠ "" →
      ("url:" ++ c) ∈ URLService.urlKeysOf s ∧
      (URLService.urlKeysOf s).count ("url:" ++ c) = 1 ∧
      URLService.entryFor s ("url:" ++ c) ∈ URLService.get_all_urls s ∧
      (URLService.entryFor s ("url:" ++ c)).original_url = some u ∧
      (alookup ("clicks:" ++ URLService.keyToCode ("url:" ++ c)) s.entries =
          none → (URLService.entryFor s ("url:" ++ c)).click_count = 0) ∧
      (alookup ("meta:" ++ URLService.keyToCode ("url:" ++ c)) s.entries =
          none → (URLService.entryFor s ("url:" ++ c)).metadata = none)) ∧
    (∀ c : String, alookup ("url:" ++ c) s.entries = none →
      ("url:" ++ c) ∉ URLService.urlKeysOf s) := by
  have heq := URLService.get_all_urls_eq s hav
  refine ⟨?_, ?_, ?_, ?_⟩
  · rw [heq, List.map_map]
    rfl
  · rw [heq, List.length_map]
  · intro c u ttl hl hu
    have hmem : ("url:" ++ c) ∈ s.entries.map Prod.fst := by
      by_contra hnm
      rw [(alookup_eq_none_iff _ _).mpr hnm] at hl
      simp at hl
    have hmemk : ("url:" ++ c) ∈ URLService.urlKeysOf s :=
      (mem_urlKeysOf s _).mpr ⟨hmem, urlKey_isPrefix c⟩
    have hndk : (URLService.urlKeysOf s).Nodup := hnd.filter _
    refine ⟨hmemk, List.count_eq_one_of_mem hndk hmemk, ?_, ?_, ?_, ?_⟩
    · rw [heq]
      exact List.mem_map_of_mem _ hmemk
    · simp [URLService.entryFor, hl, hu]
    · intro hc
      simp [URLService.entryFor, hc]
    · intro hm
      simp [URLService.entryFor, hm]
  · intro c hnone hmem
    rw [mem_urlKeysOf] at hmem
    rw [alookup_eq_none_iff] at hnone
    exact hnone hmem.1

/-- Witness for C8 on a store holding one live URL entry and one orphaned
metadata entry. -/
theorem C8_witness :
    (Store.mk true [("url:a", .vstr "http://x" 1),
      ("meta:b", .vstr "m" 2)]).avail = true ∧
    ((Store.mk true [("url:a", .vstr "http://x" 1),
      ("meta:b", .vstr "m" 2)]).entries.map Prod.fst).Nodup ∧
    (URLService.get_all_urls ⟨true, [("url:a", .vstr "http://x" 1),
      ("meta:b", .vstr "m" 2)]⟩).map (fun e => e.short_code) =
      (URLService.urlKeysOf ⟨true, [("url:a", .vstr "http://x" 1),
        ("meta:b", .vstr "m" 2)]⟩).map URLService.keyToCode :=
  ⟨rfl, by decide,
   (C8_list_all ⟨true, [("url:a", .vstr "http://x" 1), ("meta:b", .vstr "m" 2)]⟩
     rfl (by decide)).1⟩

/-- C9: `generate_short_code` always returns an 8-character string whose
first 6 characters are lowercase hex digits forming a pure deterministic
function of the URL (the truncated content hash, identical across any two
calls on the same input) and whose last 2 characters are drawn from
`[A-Za-z0-9]`. -/
theorem C9_generate_code (url : String) (r1 r2 : Nat) :
    (URLService.generate_short_code url r1 r2).length = 8 ∧
    (URLService.generate_short_code url r1 r2).data.take 6 =
      (md5HexChars (strBytes url)).take 6 ∧
    (∀ c ∈ (URLService.generate_short_code url r1 r2).data.take 6,
      c ∈ "0123456789abcdef".data) ∧
    (∀ c ∈ (URLService.generate_short_code url r1 r2).data.drop 6,
      c ∈ asciiLettersDigits) ∧
    (∀ r1' r2' : Nat,
      (URLService.generate_short_code url r1' r2').data.take 6 =
        (URLService.generate_short_code url r1 r2).data.take 6) := by
  have h32 : (md5HexChars (strBytes url)).length = 32 := by
    rw [md5HexChars, bytesToHex_length, md5Bytes_length]
  have h6 : ((md5HexChars (strBytes url)).take 6).length = 6 := by
    rw [List.length_take, h32]
    decide
  have htake : ∀ a b : Nat,
      (URLService.generate_short_code url a b).data.take 6 =
        (md5HexChars (strBytes url)).take 6 := by
    intro a b
    show (((md5HexChars (strBytes url)).take 6) ++
      [asciiLettersDigits.getD (a % 62) 'a',
       asciiLettersDigits.getD (b % 62) 'a']).take 6 =
      (md5HexChars (strBytes url)).take 6
    rw [List.take_append_eq_append_take, h6, List.take_take]
    simp
  have hdrop : (URLService.generate_short_code url r1 r2).data.drop 6 =
      [asciiLettersDigits.getD (r1 % 62) 'a',
       asciiLettersDigits.getD (r2 % 62) 'a'] := by
    have hd := List.drop_left ((md5HexChars (strBytes url)).take 6)
      [asciiLettersDigits.getD (r1 % 62) 'a',
       asciiLettersDigits.getD (r2 % 62) 'a']
    rw [h6] at hd
    exact hd
  refine ⟨?_, htake r1 r2, ?_, ?_,
    fun a b => (htake a b).trans (htake r1 r2).symm⟩
  · show (((md5HexChars (strBytes url)).take 6) ++
      [asciiLettersDigits.getD (r1 % 62) 'a',
       asciiLettersDigits.getD (r2 % 62) 'a']).length = 8
    rw [List.length_append, h6]
    rfl
  · intro c hc
    rw [htake r1 r2] at hc
    exact bytesToHex_mem_hex (md5Bytes (strBytes url)) (md5Bytes_lt _) c
      (List.mem_of_mem_take hc)
  · intro c hc
    rw [hdrop] at hc
    rcases List.mem_cons.mp hc with rfl | hc
    · exact asciiLettersDigits_getD_mem _ (Nat.mod_lt _ (by omega))
    rcases List.mem_cons.mp hc with rfl | hc
    · exact asciiLettersDigits_getD_mem _ (Nat.mod_lt _ (by omega))
    · exact absurd hc (List.not_mem_nil c)

/-- Witness for C9 at a concrete URL and entropy. -/
theorem C9_witness :
    (URLService.generate_short_code "https://example.com" 0 61).length = 8 ∧
    (URLService.generate_short_code "https://example.com" 0 61).data.take 6 =
      (md5HexChars (strBytes "https://example.com")).take 6 :=
  ⟨(C9_generate_code "https://example.com" 0 61).1,
   (C9_generate_code "https://example.com" 0 61).2.1⟩

/-- C10: `get_all_urls` derives the reported code with
`key.replace("url:", "")`, removing every occurrence of `"url:"`, not just
the leading prefix: a code without `"url:"` inside is reported exactly, but
the custom code `"xurl:y"` (accepted verbatim at creation) is listed as
`"xy"` — which does not resolve, while the real code still does. -/
theorem C10_code_stripping :
    (∀ c : String, hasUrlSub c.data = false →
      URLService.keyToCode ("url:" ++ c) = c) ∧
    (URLService.create_short_url ⟨true, []⟩ "http://t" (some "xurl:y") none
        0 0 0).map
      (fun p => ((URLService.get_all_urls p.2).map (fun e => e.short_code),
                 (URLService.get_original_url p.2 "xy" 0).1,
                 (URLService.get_original_url p.2 "xurl:y" 0).1)) =
      .ok (["xy"], none, some "http://t") := by
  refine ⟨keyToCode_urlKey, ?_⟩
  rfl

/-- Witness for C10 at a concrete code without an inner occurrence. -/
theorem C10_witness :
    hasUrlSub "abc".data = false ∧
    URLService.keyToCode ("url:" ++ "abc") = "abc" :=
  ⟨by decide, C10_code_stripping.1 "abc" (by decide)⟩
